import Mathlib

/-!
Verification of the game logic of a browser Wordle clone (source:
`src/App.jsx`).  JavaScript strings are modelled as lists of characters
(`JStr`), `String.prototype.toUpperCase` as mapping `Char.toUpper`,
`String.prototype.includes` as list-infix containment, and indexing
`s[i]` (which yields `undefined` out of range) as `Option`-valued lookup.
The React component state (`word`, `guessedWords`, `currentTry`,
`isGameOver`, `currentGuess`) becomes a record `GameState`; the event
handlers `handleSubmitGuess`, `handleKeyPress` and `resetGame` become
state-transformation functions, with `handleSubmitGuess` additionally
returning the list of alert messages it raises.
-/

abbrev JStr := List Char

/-- Character data of a Lean string literal, as a `JStr`. -/
def str (s : String) : JStr := s.data

/-- Model of JavaScript `toUpperCase` (per-character, ASCII). -/
def jsToUpper (s : JStr) : JStr := s.map Char.toUpper

/-- Model of JavaScript string indexing `s[i]`: `none` plays `undefined`. -/
def jsCharAt (s : JStr) (i : Nat) : Option Char := s[i]?

/-- Model of JavaScript `s.includes(sub)`: substring containment. -/
def jsIncludes (s sub : JStr) : Bool := decide (sub <:+: s)

inductive TileStatus where
  | green
  | yellow
  | grey
  | white
  deriving DecidableEq

def MAX_TRIES : Nat := 6

def WORD_LENGTH : Nat := 5

def INITIAL_GUESSES : List JStr := List.replicate MAX_TRIES []

def AVAILABLE_LETTERS : JStr := str "ABCDEFGHIJKLMNOPQRSTUVWXYZ"

/-- `calculateTileStatus` from `App.jsx` lines 16-24: colour of one tile,
from the guessed letter (a string: one character, or empty), its position,
and the secret word. -/
def calculateTileStatus (letter : JStr) (position : Nat) (word : JStr) : TileStatus :=
  if letter = [] then TileStatus.white
  else
    let upperLetter := jsToUpper letter
    let upperWord := jsToUpper word
    if (jsCharAt upperWord position).map (fun c => [c]) = some upperLetter then TileStatus.green
    else if jsIncludes upperWord upperLetter then TileStatus.yellow
    else TileStatus.grey

/-- The React component state of `App` / `GameField`. -/
structure GameState where
  word : JStr
  guessedWords : List JStr
  currentTry : Nat
  isGameOver : Bool
  currentGuess : JStr
  deriving DecidableEq

/-- State right after the secret word `w` is stored (`App.jsx` lines 136-140
and 149/153): fresh guess list, attempt 0, game running, empty input. -/
def initState (w : JStr) : GameState :=
  { word := w
    guessedWords := INITIAL_GUESSES
    currentTry := 0
    isGameOver := false
    currentGuess := [] }

/-- `handleSubmitGuess` from `App.jsx` lines 51-80.  Returns the next state
together with the list of alert messages raised during the call. -/
def handleSubmitGuess (s : GameState) : GameState × List JStr :=
  if s.currentGuess.length ≠ WORD_LENGTH then
    (s, [str "Must be a 5-letter word!"])
  else
    let submittedWord := jsToUpper s.currentGuess
    let secretWord := jsToUpper s.word
    let s1 := { s with guessedWords := s.guessedWords.set s.currentTry submittedWord }
    if submittedWord = secretWord then
      ({ s1 with isGameOver := true }, [])
    else if s.currentTry ≥ MAX_TRIES - 1 then
      ({ s1 with isGameOver := true }, [str "Game Over! The word was: " ++ s.word])
    else
      ({ s1 with currentGuess := [], currentTry := s.currentTry + 1 }, [])

/-- `handleKeyPress` from `App.jsx` lines 85-101, together with the guard of
the surrounding effect (lines 82-83): when the game is over no listener is
installed, so a key event leaves the state unchanged. -/
def handleKeyPress (s : GameState) (eventKey : JStr) : GameState :=
  if s.isGameOver then s
  else
    let key := jsToUpper eventKey
    if key = str "ENTER" then (handleSubmitGuess s).1
    else if key = str "BACKSPACE" ∨ key = str "DELETE" then
      { s with currentGuess := s.currentGuess.dropLast }
    else if jsIncludes AVAILABLE_LETTERS key ∧ s.currentGuess.length < WORD_LENGTH then
      { s with currentGuess := s.currentGuess ++ key }
    else s

/-- `resetGame` from `App.jsx` lines 164-169. -/
def resetGame (s : GameState) : GameState :=
  { s with
    guessedWords := INITIAL_GUESSES
    currentTry := 0
    isGameOver := false
    currentGuess := [] }

/-- The end-of-game banner of `App.jsx` lines 190-194: shown only when the
game is over, saying `You Win!` when some entry of the guess list equals the
secret word and `You Lost!` otherwise. -/
def gameStatusMessage (s : GameState) : Option JStr :=
  if s.isGameOver then
    some (if s.word ∈ s.guessedWords then str "You Win!" else str "You Lost!")
  else none

/-- Fold a sequence of key events over a state. -/
def pressKeys (s : GameState) (ks : List JStr) : GameState :=
  ks.foldl handleKeyPress s

/-- States reachable from `i` by key events (arbitrary keys) and resets. -/
inductive Reachable (i : GameState) : GameState → Prop
  | refl : Reachable i i
  | key (s : GameState) (k : JStr) : Reachable i s → Reachable i (handleKeyPress s k)
  | reset (s : GameState) : Reachable i s → Reachable i (resetGame s)

/-- A well-formed keyboard event: it carries a single character (or nothing),
or one of the named control keys the handler recognises. -/
def KeyEventWF (k : JStr) : Prop :=
  k.length ≤ 1 ∨ jsToUpper k = str "ENTER" ∨ jsToUpper k = str "BACKSPACE" ∨
    jsToUpper k = str "DELETE"

/-- States reachable from `i` using only well-formed keyboard events. -/
inductive ReachableWF (i : GameState) : GameState → Prop
  | refl : ReachableWF i i
  | key (s : GameState) (k : JStr) : ReachableWF i s → KeyEventWF k →
      ReachableWF i (handleKeyPress s k)
  | reset (s : GameState) : ReachableWF i s → ReachableWF i (resetGame s)

/-- Well-formedness of the in-progress guess: length at most 5, only
uppercase letters A-Z. -/
def GuessWF (s : GameState) : Prop :=
  s.currentGuess.length ≤ 5 ∧ ∀ c ∈ s.currentGuess, c ∈ AVAILABLE_LETTERS

/-- Session invariant maintained by all operations, for a session whose
secret word is `w`: the word is never rewritten, the guess list keeps its
six slots, the attempt index stays in range, slots above the current
attempt are still empty, slots below it hold submitted words that missed,
and while the game runs the current slot is still empty. -/
def SessionInv (w : JStr) (s : GameState) : Prop :=
  s.word = w ∧
  s.guessedWords.length = 6 ∧
  s.currentTry < 6 ∧
  (∀ j : Nat, s.currentTry < j → j < 6 → s.guessedWords[j]? = some []) ∧
  (∀ j : Nat, j < s.currentTry → ∀ g, s.guessedWords[j]? = some g → g ≠ jsToUpper w) ∧
  (s.isGameOver = false → s.guessedWords[s.currentTry]? = some []) ∧
  (s.isGameOver = true → ∃ g, s.guessedWords[s.currentTry]? = some g ∧ g.length = 5)

/-- Demo state: from a fresh session with secret word HELLO, type CRANE and
press Enter (one wrong submission). -/
def demoAfterOneGuess : GameState :=
  pressKeys (initState (str "HELLO"))
    [str "c", str "r", str "a", str "n", str "e", str "Enter"]

/-- Demo state: from a fresh session with secret word HELLO, type HELLO and
press Enter (a winning submission). -/
def demoWinState : GameState :=
  pressKeys (initState (str "HELLO"))
    [str "h", str "e", str "l", str "l", str "o", str "Enter"]

/-- Demo state: from a fresh session with secret word CRANE, type TRACE and
press Enter. -/
def demoTraceState : GameState :=
  pressKeys (initState (str "CRANE"))
    [str "t", str "r", str "a", str "c", str "e", str "Enter"]

/-- Demo state for submissions: secret word HELLO, five letters of CRANE
typed, ready to submit at attempt 0. -/
def demoReadyState : GameState :=
  { initState (str "HELLO") with currentGuess := str "CRANE" }

/-- Demo state: secret word HELLO, CRANE typed at the final attempt index. -/
def demoFinalTryState : GameState :=
  { initState (str "HELLO") with currentGuess := str "CRANE", currentTry := 5 }

/-- Demo state: secret word HELLO with hello typed (a winning guess in
lowercase), ready to submit at attempt 0. -/
def demoWinReadyState : GameState :=
  { initState (str "HELLO") with currentGuess := str "hello" }

theorem singleton_infix_iff_mem {c : Char} {l : JStr} : [c] <:+: l ↔ c ∈ l := by
  constructor
  · intro h
    exact h.subset (List.mem_singleton_self c)
  · intro h
    obtain ⟨p, t, rfl⟩ := List.append_of_mem h
    exact ⟨p, t, by simp⟩

theorem jsIncludes_eq_true_iff {s sub : JStr} : jsIncludes s sub = true ↔ sub <:+: s := by
  simp [jsIncludes]

theorem jsToUpper_singleton (c : Char) : jsToUpper [c] = [c.toUpper] := rfl

theorem jsToUpper_length (s : JStr) : (jsToUpper s).length = s.length :=
  List.length_map s Char.toUpper

/-- C1: for a one-character letter `L`, a position `P` in `[0,5)` and a
five-letter secret word `W`, `calculateTileStatus` returns `green` iff the
uppercased letter equals the uppercased word's letter at `P`; otherwise
`yellow` iff the uppercased letter occurs somewhere in the uppercased word;
otherwise `grey`; and for the empty letter it returns `white` for every
position and word. -/
theorem tileStatus_spec (L : Char) (P : Nat) (W : JStr) (hP : P < 5) (hW : W.length = 5) :
    (calculateTileStatus [L] P W = TileStatus.green ↔ (jsToUpper W)[P]? = some L.toUpper) ∧
    (calculateTileStatus [L] P W = TileStatus.yellow ↔
      ¬((jsToUpper W)[P]? = some L.toUpper) ∧ L.toUpper ∈ jsToUpper W) ∧
    (calculateTileStatus [L] P W = TileStatus.grey ↔ ¬(L.toUpper ∈ jsToUpper W)) ∧
    (∀ Q V, calculateTileStatus ([] : JStr) Q V = TileStatus.white) := by
  have hlen : (jsToUpper W).length = 5 := by rw [jsToUpper_length, hW]
  obtain ⟨c, hc⟩ : ∃ c, (jsToUpper W)[P]? = some c :=
    ⟨_, List.getElem?_eq_getElem (by omega)⟩
  have hgreen : ((jsCharAt (jsToUpper W) P).map (fun c => [c]) = some (jsToUpper [L])) ↔
      (jsToUpper W)[P]? = some L.toUpper := by
    rw [jsToUpper_singleton]
    simp [jsCharAt, hc]
  have hyellow : jsIncludes (jsToUpper W) (jsToUpper [L]) = true ↔ L.toUpper ∈ jsToUpper W := by
    rw [jsToUpper_singleton, jsIncludes_eq_true_iff]
    exact singleton_infix_iff_mem
  have hwhite : ∀ Q V, calculateTileStatus ([] : JStr) Q V = TileStatus.white := by
    intro Q V
    simp [calculateTileStatus]
  have hLne : ([L] : JStr) ≠ [] := by simp
  by_cases hG : (jsToUpper W)[P]? = some L.toUpper
  · have hmem : L.toUpper ∈ jsToUpper W := List.mem_iff_getElem?.mpr ⟨P, hG⟩
    have hstat : calculateTileStatus [L] P W = TileStatus.green := by
      simp only [calculateTileStatus, if_neg hLne]
      rw [if_pos (hgreen.mpr hG)]
    refine ⟨by simp [hstat, hG], by simp [hstat, hG], by simp [hstat, hmem], hwhite⟩
  · by_cases hY : L.toUpper ∈ jsToUpper W
    · have hstat : calculateTileStatus [L] P W = TileStatus.yellow := by
        simp only [calculateTileStatus, if_neg hLne]
        rw [if_neg (fun h => hG (hgreen.mp h)), if_pos (hyellow.mpr hY)]
      refine ⟨by simp [hstat, hG], by simp [hstat, hG, hY], by simp [hstat, hY], hwhite⟩
    · have hstat : calculateTileStatus [L] P W = TileStatus.grey := by
        simp only [calculateTileStatus, if_neg hLne]
        rw [if_neg (fun h => hG (hgreen.mp h)),
          if_neg (fun h => hY (hyellow.mp h))]
      refine ⟨by simp [hstat, hG], by simp [hstat, hY], by simp [hstat, hY], hwhite⟩

theorem tileStatus_spec_witness :
    calculateTileStatus ['b'] 1 (str "ABCDE") = TileStatus.green := by
  have h := tileStatus_spec 'b' 1 (str "ABCDE") (by decide) (by decide)
  exact h.1.mpr (by decide)

/-- C2, counterexample: in the claimed scenario (secret word CRANE, guess
TRACE) the tile for the letter A at position 2 is not yellow — CRANE itself
has A at position 2, so the tile is green. -/
theorem trace_scenario_counterexample :
    ¬(calculateTileStatus (str "A") 2 (str "CRANE") = TileStatus.yellow) ∧
    calculateTileStatus (str "A") 2 (str "CRANE") = TileStatus.green := by
  decide

/-- C2, amended: with secret word CRANE and guess TRACE submitted at
attempt 0, the per-position tile statuses are T=grey, R=green, A=green,
C=yellow, E=green, and the current attempt index becomes 1 after the
submission. -/
theorem trace_scenario :
    calculateTileStatus (str "T") 0 (str "CRANE") = TileStatus.grey ∧
    calculateTileStatus (str "R") 1 (str "CRANE") = TileStatus.green ∧
    calculateTileStatus (str "A") 2 (str "CRANE") = TileStatus.green ∧
    calculateTileStatus (str "C") 3 (str "CRANE") = TileStatus.yellow ∧
    calculateTileStatus (str "E") 4 (str "CRANE") = TileStatus.green ∧
    demoTraceState.currentTry = 1 := by
  decide

/-- C3: submitting while the in-progress guess has length other than 5
leaves the whole state — guess list, attempt index, game-over flag and
in-progress guess — unchanged. -/
theorem submit_invalid_length_noop (s : GameState) (h : s.currentGuess.length ≠ 5) :
    (handleSubmitGuess s).1 = s := by
  simp [handleSubmitGuess, WORD_LENGTH, h]

theorem submit_invalid_length_noop_witness :
    (handleSubmitGuess (initState (str "HELLO"))).1 = initState (str "HELLO") :=
  submit_invalid_length_noop (initState (str "HELLO")) (by decide)

/-- C7: resetting sets the guess list to six empty strings, the attempt
index to 0, the game-over flag to false and the in-progress guess to empty,
and leaves the secret word unchanged. -/
theorem resetGame_spec (s : GameState) :
    (resetGame s).guessedWords = List.replicate 6 ([] : JStr) ∧
    (resetGame s).currentTry = 0 ∧
    (resetGame s).isGameOver = false ∧
    (resetGame s).currentGuess = [] ∧
    (resetGame s).word = s.word := by
  refine ⟨rfl, rfl, rfl, rfl, rfl⟩

/-- C4: submitting a length-5 guess whose uppercasing equals the uppercased
secret word, at any attempt index below 6, writes the uppercased guess into
the guess list at that index, sets the game-over flag, and leaves both the
attempt index and the in-progress guess unchanged. -/
theorem submit_correct_word (s : GameState) (h5 : s.currentGuess.length = 5)
    (hwin : jsToUpper s.currentGuess = jsToUpper s.word)
    (hlen : s.guessedWords.length = 6) (hi : s.currentTry < 6) :
    (handleSubmitGuess s).1.guessedWords[s.currentTry]? = some (jsToUpper s.currentGuess) ∧
    (handleSubmitGuess s).1.isGameOver = true ∧
    (handleSubmitGuess s).1.currentTry = s.currentTry ∧
    (handleSubmitGuess s).1.currentGuess = s.currentGuess := by
  have h5' : ¬(s.currentGuess.length ≠ WORD_LENGTH) := by simp [WORD_LENGTH, h5]
  simp only [handleSubmitGuess, if_neg h5', if_pos hwin]
  refine ⟨?_, by trivial, by trivial, by trivial⟩
  exact List.getElem?_set_self (by rw [hlen]; omega)

theorem submit_correct_word_witness :
    (handleSubmitGuess demoWinReadyState).1.guessedWords[demoWinReadyState.currentTry]? =
      some (jsToUpper demoWinReadyState.currentGuess) ∧
    (handleSubmitGuess demoWinReadyState).1.isGameOver = true :=
  ⟨(submit_correct_word demoWinReadyState (by decide) (by decide) (by decide) (by decide)).1,
   (submit_correct_word demoWinReadyState (by decide) (by decide) (by decide) (by decide)).2.1⟩

/-- C5: submitting a length-5 guess whose uppercasing differs from the
uppercased secret word at the final attempt index 5 sets the game-over flag
without advancing the attempt index, and the alert raised contains the
secret word. -/
theorem submit_final_attempt (s : GameState) (h5 : s.currentGuess.length = 5)
    (hne : jsToUpper s.currentGuess ≠ jsToUpper s.word) (ht : s.currentTry = 5) :
    (handleSubmitGuess s).1.isGameOver = true ∧
    (handleSubmitGuess s).1.currentTry = s.currentTry ∧
    (handleSubmitGuess s).2 = [str "Game Over! The word was: " ++ s.word] ∧
    s.word <:+: str "Game Over! The word was: " ++ s.word := by
  have h5' : ¬(s.currentGuess.length ≠ WORD_LENGTH) := by simp [WORD_LENGTH, h5]
  have hge : s.currentTry ≥ MAX_TRIES - 1 := by simp [MAX_TRIES, ht]
  simp only [handleSubmitGuess, if_neg h5', if_neg hne, if_pos hge]
  exact ⟨by trivial, by trivial, by trivial, ⟨str "Game Over! The word was: ", [], by simp⟩⟩

theorem submit_final_attempt_witness :
    (handleSubmitGuess demoFinalTryState).1.isGameOver = true ∧
    (handleSubmitGuess demoFinalTryState).1.currentTry = demoFinalTryState.currentTry :=
  ⟨(submit_final_attempt demoFinalTryState (by decide) (by decide) (by decide)).1,
   (submit_final_attempt demoFinalTryState (by decide) (by decide) (by decide)).2.1⟩

/-- C6: submitting a length-5 guess whose uppercasing differs from the
uppercased secret word, before the final attempt, writes the uppercased
guess into the guess list at the current index, clears the in-progress
guess, increments the attempt index by exactly one, and leaves the
game-over flag false. -/
theorem submit_wrong_word_advances (s : GameState) (h5 : s.currentGuess.length = 5)
    (hne : jsToUpper s.currentGuess ≠ jsToUpper s.word) (ht : s.currentTry < 5)
    (hlen : s.guessedWords.length = 6) (hgo : s.isGameOver = false) :
    (handleSubmitGuess s).1.guessedWords[s.currentTry]? = some (jsToUpper s.currentGuess) ∧
    (handleSubmitGuess s).1.currentGuess = [] ∧
    (handleSubmitGuess s).1.currentTry = s.currentTry + 1 ∧
    (handleSubmitGuess s).1.isGameOver = false := by
  have h5' : ¬(s.currentGuess.length ≠ WORD_LENGTH) := by simp [WORD_LENGTH, h5]
  have hlt : ¬(s.currentTry ≥ MAX_TRIES - 1) := by
    simp only [MAX_TRIES]
    omega
  simp only [handleSubmitGuess, if_neg h5', if_neg hne, if_neg hlt]
  refine ⟨?_, by trivial, by trivial, by simp [hgo]⟩
  exact List.getElem?_set_self (by rw [hlen]; omega)

theorem submit_wrong_word_advances_witness :
    (handleSubmitGuess demoReadyState).1.currentTry = demoReadyState.currentTry + 1 ∧
    (handleSubmitGuess demoReadyState).1.isGameOver = false :=
  ⟨(submit_wrong_word_advances demoReadyState (by decide) (by decide) (by decide)
      (by decide) (by decide)).2.2.1,
   (submit_wrong_word_advances demoReadyState (by decide) (by decide) (by decide)
      (by decide) (by decide)).2.2.2⟩

theorem submitGuess_try (s : GameState) :
    (handleSubmitGuess s).1.currentTry = s.currentTry ∨
    ((handleSubmitGuess s).1.currentTry = s.currentTry + 1 ∧ s.currentTry < 5) := by
  by_cases h5 : s.currentGuess.length ≠ WORD_LENGTH
  · left
    simp [handleSubmitGuess, h5]
  · push_neg at h5
    by_cases hwin : jsToUpper s.currentGuess = jsToUpper s.word
    · left
      simp [handleSubmitGuess, h5, hwin]
    · by_cases hge : s.currentTry ≥ MAX_TRIES - 1
      · left
        simp [handleSubmitGuess, h5, hwin, hge]
      · right
        constructor
        · simp [handleSubmitGuess, h5, hwin, hge]
        · simp only [MAX_TRIES] at hge
          omega

theorem keyPress_try (s : GameState) (k : JStr) :
    (handleKeyPress s k).currentTry = s.currentTry ∨
    ((handleKeyPress s k).currentTry = s.currentTry + 1 ∧ s.currentTry < 5) := by
  by_cases hgo : s.isGameOver
  · left
    simp [handleKeyPress, hgo]
  · by_cases hk1 : jsToUpper k = str "ENTER"
    · have heq : handleKeyPress s k = (handleSubmitGuess s).1 := by
        simp [handleKeyPress, hgo, hk1]
      rw [heq]
      exact submitGuess_try s
    · by_cases hk2 : jsToUpper k = str "BACKSPACE" ∨ jsToUpper k = str "DELETE"
      · left
        simp [handleKeyPress, hgo, hk1, hk2]
      · by_cases hk3 : jsIncludes AVAILABLE_LETTERS (jsToUpper k) = true ∧
            s.currentGuess.length < WORD_LENGTH
        · left
          simp [handleKeyPress, hgo, hk1, hk2, hk3]
        · left
          simp [handleKeyPress, hgo, hk1, hk2, hk3]

theorem reachable_pressKeys (i s : GameState) (ks : List JStr) (h : Reachable i s) :
    Reachable i (pressKeys s ks) := by
  induction ks generalizing s with
  | nil => exact h
  | cons k ks ih =>
    simp only [pressKeys, List.foldl_cons]
    exact ih (handleKeyPress s k) (Reachable.key s k h)

/-- C8, counterexample: the attempt index can decrease across an operation.
From the initial state with secret word HELLO, typing CRANE and pressing
Enter reaches a state with attempt index 1; resetting from there takes the
index back to 0, a strict decrease. -/
theorem attemptIndex_reset_counterexample :
    Reachable (initState (str "HELLO")) demoAfterOneGuess ∧
    (resetGame demoAfterOneGuess).currentTry < demoAfterOneGuess.currentTry := by
  constructor
  · exact reachable_pressKeys _ _ _ Reachable.refl
  · decide

/-- C8, amended: in every state reachable from the initial state by keyboard
events, submissions and resets, the attempt index is in `[0, 6)`; it never
decreases across any keyboard event (submissions included); the reset
operation sets it back to 0. -/
theorem attemptIndex_bounded_mono (w : JStr) (s : GameState)
    (h : Reachable (initState w) s) :
    s.currentTry < 6 ∧
    (∀ k, s.currentTry ≤ (handleKeyPress s k).currentTry) ∧
    (resetGame s).currentTry = 0 := by
  refine ⟨?_, ?_, rfl⟩
  · induction h with
    | refl => show 0 < 6; omega
    | key s k hr ih =>
      rcases keyPress_try s k with h1 | ⟨h1, h2⟩ <;> omega
    | reset s hr ih => show 0 < 6; omega
  · intro k
    rcases keyPress_try s k with h1 | ⟨h1, h2⟩ <;> omega

theorem attemptIndex_bounded_mono_witness :
    (initState (str "HELLO")).currentTry < 6 ∧
    (∀ k, (initState (str "HELLO")).currentTry ≤
      (handleKeyPress (initState (str "HELLO")) k).currentTry) ∧
    (resetGame (initState (str "HELLO"))).currentTry = 0 :=
  attemptIndex_bounded_mono (str "HELLO") (initState (str "HELLO")) Reachable.refl

theorem sessionInv_finish (w : JStr) (s : GameState)
    (hword : s.word = w) (hlen : s.guessedWords.length = 6) (htry : s.currentTry < 6)
    (habove : ∀ j : Nat, s.currentTry < j → j < 6 → s.guessedWords[j]? = some [])
    (hbelow : ∀ j : Nat, j < s.currentTry → ∀ g, s.guessedWords[j]? = some g → g ≠ jsToUpper w)
    (u : JStr) (hu : u.length = 5) :
    SessionInv w
      { s with
        guessedWords := s.guessedWords.set s.currentTry u
        isGameOver := true } := by
  refine ⟨hword, ?_, htry, ?_, ?_, ?_, ?_⟩
  · show (s.guessedWords.set s.currentTry u).length = 6
    rw [List.length_set]
    exact hlen
  · intro j hj hj6
    have hj' : s.currentTry < j := hj
    show (s.guessedWords.set s.currentTry u)[j]? = some []
    rw [List.getElem?_set_ne (by omega)]
    exact habove j hj' hj6
  · intro j hj g hg
    have hj' : j < s.currentTry := hj
    have hg' : (s.guessedWords.set s.currentTry u)[j]? = some g := hg
    rw [List.getElem?_set_ne (by omega)] at hg'
    exact hbelow j hj' g hg'
  · intro habs
    exact absurd habs (by simp)
  · intro _
    refine ⟨u, ?_, hu⟩
    show (s.guessedWords.set s.currentTry u)[s.currentTry]? = some u
    exact List.getElem?_set_self (by omega)

theorem sessionInv_advance (w : JStr) (s : GameState) (hgo : s.isGameOver = false)
    (hword : s.word = w) (hlen : s.guessedWords.length = 6) (hlt5 : s.currentTry < 5)
    (habove : ∀ j : Nat, s.currentTry < j → j < 6 → s.guessedWords[j]? = some [])
    (hbelow : ∀ j : Nat, j < s.currentTry → ∀ g, s.guessedWords[j]? = some g → g ≠ jsToUpper w)
    (u : JStr) (hmiss : u ≠ jsToUpper w) :
    SessionInv w
      { s with
        guessedWords := s.guessedWords.set s.currentTry u
        currentGuess := []
        currentTry := s.currentTry + 1 } := by
  refine ⟨hword, ?_, ?_, ?_, ?_, ?_, ?_⟩
  · show (s.guessedWords.set s.currentTry u).length = 6
    rw [List.length_set]
    exact hlen
  · show s.currentTry + 1 < 6
    omega
  · intro j hj hj6
    have hj' : s.currentTry + 1 < j := hj
    have hj6' : j < 6 := hj6
    show (s.guessedWords.set s.currentTry u)[j]? = some []
    rw [List.getElem?_set_ne (by omega)]
    exact habove j (by omega) hj6'
  · intro j hj g hg
    have hj' : j < s.currentTry + 1 := hj
    have hg' : (s.guessedWords.set s.currentTry u)[j]? = some g := hg
    rcases Nat.lt_or_ge j s.currentTry with hjlt | hjge
    · rw [List.getElem?_set_ne (by omega)] at hg'
      exact hbelow j hjlt g hg'
    · have hjeq : j = s.currentTry := by omega
      subst hjeq
      rw [List.getElem?_set_self (by omega)] at hg'
      have hgeq : g = u := by
        injection hg' with hg'
        exact hg'.symm
      rw [hgeq]
      exact hmiss
  · intro _
    show (s.guessedWords.set s.currentTry u)[s.currentTry + 1]? = some []
    rw [List.getElem?_set_ne (by omega)]
    exact habove (s.currentTry + 1) (by omega) (by omega)
  · intro habs
    have : s.isGameOver = true := habs
    rw [hgo] at this
    exact absurd this (by simp)

theorem submitGuess_inv (w : JStr) (s : GameState) (hgo : s.isGameOver = false)
    (h : SessionInv w s) : SessionInv w (handleSubmitGuess s).1 := by
  obtain ⟨hword, hlen, htry, habove, hbelow, hcur, hdone⟩ := h
  by_cases h5 : s.currentGuess.length ≠ WORD_LENGTH
  · have heq : (handleSubmitGuess s).1 = s := by
      simp [handleSubmitGuess, h5]
    rw [heq]
    exact ⟨hword, hlen, htry, habove, hbelow, hcur, hdone⟩
  · have h5' : ¬(s.currentGuess.length ≠ WORD_LENGTH) := h5
    push_neg at h5
    have hlen5 : (jsToUpper s.currentGuess).length = 5 := by
      rw [jsToUpper_length, h5, WORD_LENGTH]
    by_cases hwin : jsToUpper s.currentGuess = jsToUpper s.word
    · have heq : (handleSubmitGuess s).1 =
          { s with
            guessedWords := s.guessedWords.set s.currentTry (jsToUpper s.currentGuess)
            isGameOver := true } := by
        simp only [handleSubmitGuess, if_neg h5', if_pos hwin]
      rw [heq]
      exact sessionInv_finish w s hword hlen htry habove hbelow _ hlen5
    · by_cases hge : s.currentTry ≥ MAX_TRIES - 1
      · have heq : (handleSubmitGuess s).1 =
            { s with
              guessedWords := s.guessedWords.set s.currentTry (jsToUpper s.currentGuess)
              isGameOver := true } := by
          simp only [handleSubmitGuess, if_neg h5', if_neg hwin, if_pos hge]
        rw [heq]
        exact sessionInv_finish w s hword hlen htry habove hbelow _ hlen5
      · have heq : (handleSubmitGuess s).1 =
            { s with
              guessedWords := s.guessedWords.set s.currentTry (jsToUpper s.currentGuess)
              currentGuess := []
              currentTry := s.currentTry + 1 } := by
          simp only [handleSubmitGuess, if_neg h5', if_neg hwin, if_neg hge]
        rw [heq]
        have hlt5 : s.currentTry < 5 := by
          simp only [MAX_TRIES] at hge
          omega
        have hmiss : jsToUpper s.currentGuess ≠ jsToUpper w := by
          rw [← hword]
          exact hwin
        exact sessionInv_advance w s hgo hword hlen hlt5 habove hbelow _ hmiss

theorem keyPress_inv (w : JStr) (s : GameState) (k : JStr) (h : SessionInv w s) :
    SessionInv w (handleKeyPress s k) := by
  by_cases hgo : s.isGameOver
  · have heq : handleKeyPress s k = s := by
      simp [handleKeyPress, hgo]
    rw [heq]
    exact h
  · have hgo' : s.isGameOver = false := by
      simpa using hgo
    by_cases hk1 : jsToUpper k = str "ENTER"
    · have heq : handleKeyPress s k = (handleSubmitGuess s).1 := by
        simp [handleKeyPress, hgo', hk1]
      rw [heq]
      exact submitGuess_inv w s hgo' h
    · obtain ⟨hword, hlen, htry, habove, hbelow, hcur, hdone⟩ := h
      by_cases hk2 : jsToUpper k = str "BACKSPACE" ∨ jsToUpper k = str "DELETE"
      · have heq : handleKeyPress s k = { s with currentGuess := s.currentGuess.dropLast } := by
          simp [handleKeyPress, hgo', hk1, hk2]
        rw [heq]
        exact ⟨hword, hlen, htry, habove, hbelow, hcur, hdone⟩
      · by_cases hk3 : jsIncludes AVAILABLE_LETTERS (jsToUpper k) = true ∧
            s.currentGuess.length < WORD_LENGTH
        · have heq : handleKeyPress s k =
              { s with currentGuess := s.currentGuess ++ jsToUpper k } := by
            simp [handleKeyPress, hgo', hk1, hk2, hk3]
          rw [heq]
          exact ⟨hword, hlen, htry, habove, hbelow, hcur, hdone⟩
        · have heq : handleKeyPress s k = s := by
            simp [handleKeyPress, hgo', hk1, hk2, hk3]
          rw [heq]
          exact ⟨hword, hlen, htry, habove, hbelow, hcur, hdone⟩

theorem resetGame_inv (w : JStr) (s : GameState) (hword : s.word = w) :
    SessionInv w (resetGame s) := by
  refine ⟨hword, ?_, ?_, ?_, ?_, ?_, ?_⟩
  · show (INITIAL_GUESSES : List JStr).length = 6
    simp [INITIAL_GUESSES, MAX_TRIES]
  · show (0 : Nat) < 6
    omega
  · intro j hj hj6
    have hj6' : j < 6 := hj6
    show (List.replicate 6 ([] : JStr))[j]? = some []
    exact List.getElem?_replicate_of_lt hj6'
  · intro j hj g hg
    have hj' : j < 0 := hj
    exact absurd hj' (by omega)
  · intro _
    show (List.replicate 6 ([] : JStr))[0]? = some []
    exact List.getElem?_replicate_of_lt (by omega)
  · intro habs
    simp [resetGame] at habs

theorem initState_inv (w : JStr) : SessionInv w (initState w) := by
  refine ⟨rfl, ?_, ?_, ?_, ?_, ?_, ?_⟩
  · show (INITIAL_GUESSES : List JStr).length = 6
    simp [INITIAL_GUESSES, MAX_TRIES]
  · show (0 : Nat) < 6
    omega
  · intro j hj hj6
    have hj6' : j < 6 := hj6
    show (List.replicate 6 ([] : JStr))[j]? = some []
    exact List.getElem?_replicate_of_lt hj6'
  · intro j hj g hg
    have hj' : j < 0 := hj
    exact absurd hj' (by omega)
  · intro _
    show (List.replicate 6 ([] : JStr))[0]? = some []
    exact List.getElem?_replicate_of_lt (by omega)
  · intro habs
    simp [initState] at habs

theorem reachable_inv (w : JStr) (s : GameState) (h : Reachable (initState w) s) :
    SessionInv w s := by
  induction h with
  | refl => exact initState_inv w
  | key s k hr ih => exact keyPress_inv w s k ih
  | reset s hr ih => exact resetGame_inv w s ih.1

/-- C9: in every reachable game-over state of a session whose secret word is
a non-empty uppercase string, the end-of-game banner says `You Win!` iff
some entry of the guess list equals the secret word, and that holds iff the
entry at the current attempt index — the last submitted guess — equals the
uppercased secret word. -/
theorem win_message_iff (w : JStr) (hw : w ≠ []) (hwu : jsToUpper w = w)
    (s : GameState) (h : Reachable (initState w) s) (hg : s.isGameOver = true) :
    (gameStatusMessage s = some (str "You Win!") ↔ w ∈ s.guessedWords) ∧
    (w ∈ s.guessedWords ↔ s.guessedWords[s.currentTry]? = some (jsToUpper w)) := by
  obtain ⟨hword, hlen, htry, habove, hbelow, hcur, hdone⟩ := reachable_inv w s h
  constructor
  · simp only [gameStatusMessage, hg, if_true, hword]
    by_cases hmem : w ∈ s.guessedWords
    · simp [hmem]
    · have hne : str "You Lost!" ≠ str "You Win!" := by decide
      simp [hmem, hne]
  · rw [hwu]
    constructor
    · intro hmem
      obtain ⟨j, hj⟩ := List.mem_iff_getElem?.mp hmem
      have hjlt : j < 6 := by
        have hjl := (List.getElem?_eq_some.mp hj).1
        omega
      rcases Nat.lt_trichotomy j s.currentTry with hlt | heq | hgt
      · have hne := hbelow j hlt w hj
        rw [hwu] at hne
        exact absurd rfl hne
      · rw [← heq]
        exact hj
      · have h0 := habove j hgt hjlt
        rw [hj] at h0
        injection h0 with h0
        exact absurd h0 hw
    · intro hcurr
      exact List.mem_iff_getElem?.mpr ⟨s.currentTry, hcurr⟩

theorem win_message_iff_witness :
    (gameStatusMessage demoWinState = some (str "You Win!") ↔
      str "HELLO" ∈ demoWinState.guessedWords) ∧
    (str "HELLO" ∈ demoWinState.guessedWords ↔
      demoWinState.guessedWords[demoWinState.currentTry]? = some (jsToUpper (str "HELLO"))) :=
  win_message_iff (str "HELLO") (by decide) (by decide) demoWinState
    (reachable_pressKeys _ _ _ Reachable.refl) (by decide)

theorem submitGuess_guess (s : GameState) :
    (handleSubmitGuess s).1.currentGuess = s.currentGuess ∨
    (handleSubmitGuess s).1.currentGuess = [] := by
  by_cases h5 : s.currentGuess.length ≠ WORD_LENGTH
  · left
    simp [handleSubmitGuess, h5]
  · by_cases hwin : jsToUpper s.currentGuess = jsToUpper s.word
    · left
      simp [handleSubmitGuess, h5, hwin]
    · by_cases hge : s.currentTry ≥ MAX_TRIES - 1
      · left
        simp [handleSubmitGuess, h5, hwin, hge]
      · right
        simp [handleSubmitGuess, h5, hwin, hge]

theorem guessWF_nil (s : GameState) (h : s.currentGuess = []) : GuessWF s := by
  refine ⟨?_, ?_⟩
  · rw [h]
    simp
  · intro c hc
    rw [h] at hc
    simp at hc

theorem keyPress_guessWF (s : GameState) (k : JStr) (hk : KeyEventWF k) (h : GuessWF s) :
    GuessWF (handleKeyPress s k) := by
  obtain ⟨hlen, hmem⟩ := h
  by_cases hgo : s.isGameOver
  · have heq : handleKeyPress s k = s := by
      simp [handleKeyPress, hgo]
    rw [heq]
    exact ⟨hlen, hmem⟩
  · have hgo' : s.isGameOver = false := by
      simpa using hgo
    by_cases hk1 : jsToUpper k = str "ENTER"
    · have heq : handleKeyPress s k = (handleSubmitGuess s).1 := by
        simp [handleKeyPress, hgo', hk1]
      rw [heq]
      rcases submitGuess_guess s with hsame | hnil
      · refine ⟨?_, ?_⟩
        · rw [hsame]
          exact hlen
        · intro c hc
          rw [hsame] at hc
          exact hmem c hc
      · exact guessWF_nil _ hnil
    · by_cases hk2 : jsToUpper k = str "BACKSPACE" ∨ jsToUpper k = str "DELETE"
      · have heq : handleKeyPress s k = { s with currentGuess := s.currentGuess.dropLast } := by
          simp [handleKeyPress, hgo', hk1, hk2]
        rw [heq]
        refine ⟨?_, ?_⟩
        · show s.currentGuess.dropLast.length ≤ 5
          rw [List.length_dropLast]
          omega
        · intro c hc
          have hc' : c ∈ s.currentGuess.dropLast := hc
          exact hmem c ((List.dropLast_sublist s.currentGuess).subset hc')
      · by_cases hk3 : jsIncludes AVAILABLE_LETTERS (jsToUpper k) = true ∧
            s.currentGuess.length < WORD_LENGTH
        · have heq : handleKeyPress s k =
              { s with currentGuess := s.currentGuess ++ jsToUpper k } := by
            simp [handleKeyPress, hgo', hk1, hk2, hk3]
          rw [heq]
          obtain ⟨hinc, hlt⟩ := hk3
          have hklen : k.length ≤ 1 := by
            rcases hk with h1 | h1 | h1 | h1
            · exact h1
            · exact absurd h1 hk1
            · exact absurd (Or.inl h1) hk2
            · exact absurd (Or.inr h1) hk2
          have hinf : jsToUpper k <:+: AVAILABLE_LETTERS := jsIncludes_eq_true_iff.mp hinc
          refine ⟨?_, ?_⟩
          · show (s.currentGuess ++ jsToUpper k).length ≤ 5
            rw [List.length_append, jsToUpper_length]
            have hlt' : s.currentGuess.length < 5 := hlt
            omega
          · intro c hc
            have hc' : c ∈ s.currentGuess ++ jsToUpper k := hc
            rcases List.mem_append.mp hc' with hcl | hcr
            · exact hmem c hcl
            · exact hinf.subset hcr
        · have heq : handleKeyPress s k = s := by
            simp [handleKeyPress, hgo', hk1, hk2, hk3]
          rw [heq]
          exact ⟨hlen, hmem⟩

/-- C10: assuming every keyboard event carries a single character or one of
the named control keys, the in-progress guess in every reachable state has
length at most 5 and consists only of uppercase letters A-Z; every operation
(key handling — letter append, backspace and delete, submission — and
reset) preserves this well-formedness, and a backspace on an empty
in-progress guess leaves it empty. -/
theorem inProgressGuess_wf (w : JStr) (s : GameState)
    (h : ReachableWF (initState w) s) :
    GuessWF s ∧
    (∀ k, KeyEventWF k → GuessWF (handleKeyPress s k)) ∧
    GuessWF (resetGame s) ∧
    (s.currentGuess = [] → (handleKeyPress s (str "Backspace")).currentGuess = []) := by
  have hwf : GuessWF s := by
    induction h with
    | refl => exact guessWF_nil _ rfl
    | key s k hr hk ih => exact keyPress_guessWF s k hk ih
    | reset s hr ih => exact guessWF_nil _ rfl
  refine ⟨hwf, fun k hk => keyPress_guessWF s k hk hwf, guessWF_nil _ rfl, ?_⟩
  intro hempty
  by_cases hgo : s.isGameOver
  · have heq : handleKeyPress s (str "Backspace") = s := by
      simp [handleKeyPress, hgo]
    rw [heq]
    exact hempty
  · have hgo' : s.isGameOver = false := by
      simpa using hgo
    have hb1 : ¬(jsToUpper (str "Backspace") = str "ENTER") := by decide
    have hb2 : jsToUpper (str "Backspace") = str "BACKSPACE" := by decide
    have hb3 : ¬(str "BACKSPACE" = str "ENTER") := by decide
    have heq : handleKeyPress s (str "Backspace") =
        { s with currentGuess := s.currentGuess.dropLast } := by
      simp [handleKeyPress, hgo', hb1, hb2, hb3]
    rw [heq]
    show s.currentGuess.dropLast = []
    rw [hempty]
    rfl

theorem inProgressGuess_wf_witness :
    GuessWF (initState (str "HELLO")) ∧
    (∀ k, KeyEventWF k → GuessWF (handleKeyPress (initState (str "HELLO")) k)) ∧
    GuessWF (resetGame (initState (str "HELLO"))) ∧
    ((initState (str "HELLO")).currentGuess = [] →
      (handleKeyPress (initState (str "HELLO")) (str "Backspace")).currentGuess = []) :=
  inProgressGuess_wf (str "HELLO") (initState (str "HELLO")) ReachableWF.refl
